import Mathlib

/-!
Verification model of the SmartTextGen API core (caching, history management,
prompt templating).  The definitions below are shallow embeddings of the
Python sources `prompt_templates.py`, `ai_core.py` and `app.py`: strings are
lists of characters, the Redis store is a partial map held in an explicit
state record, the in-process `lru_cache` is an association list with
least-recently-used eviction, and the text-generation backend is an oracle
indexed by the number of backend invocations performed so far.
-/

/-- Python strings are modelled as lists of characters. -/
abbrev Str := List Char

/-- Coerce a Lean string literal to the model's string type. -/
def str (s : String) : Str := s.data

/-- The character left brace. -/
def lb : Char := Char.ofNat 123

/-- The character right brace. -/
def rb : Char := Char.ofNat 125

/-- The backquote character used in the sanitizer's third pattern. -/
def bq : Char := Char.ofNat 96

/-- Boolean test that `p` is a leading segment of `s` (Python `startswith`). -/
def begins : Str → Str → Bool
  | [], _ => true
  | _ :: _, [] => false
  | c :: p, d :: s => if c = d then begins p s else false

/-- The pattern `pat` occurs contiguously somewhere inside `s`. -/
def containsSeq (pat s : Str) : Prop := ∃ a b, s = a ++ pat ++ b

/-- Boolean version of `containsSeq`. -/
def containsSeqB (pat : Str) : Str → Bool
  | [] => begins pat []
  | c :: rest => begins pat (c :: rest) || containsSeqB pat rest

/-- Python `s.replace(c, '')` for a one-character pattern: delete every
occurrence of the character, scanning left to right. -/
def pyDeleteChar (c : Char) : Str → Str
  | [] => []
  | d :: rest => if d = c then pyDeleteChar c rest else d :: pyDeleteChar c rest

/-- Python `s.replace(bbb, '')` for the three-character pattern `[b, b, b]`:
delete every non-overlapping occurrence, scanning left to right; deleted text
is not re-scanned, matching Python `str.replace`. -/
def pyDeleteTriple (b : Char) : Str → Str
  | [] => []
  | [d] => [d]
  | [d, e] => [d, e]
  | d :: e :: f :: rest =>
    if d = b ∧ e = b ∧ f = b then pyDeleteTriple b rest
    else d :: pyDeleteTriple b (e :: f :: rest)

/-- Sanitizer from `prompt_templates.py` line 11: strip every left brace,
every right brace, and every run of three consecutive backquotes, in that
order of passes. -/
def sanitize_input (s : Str) : Str :=
  pyDeleteTriple bq (pyDeleteChar rb (pyDeleteChar lb s))

/-- The literal format field for the history context slot. -/
def histPat : Str := str "\x7bhistory_context\x7d"

/-- The literal format field for the user input slot. -/
def userPat : Str := str "\x7buser_input\x7d"

/-- Template for the recommendation mode (`prompt_templates.py` line 14). -/
def recTemplate : Str :=
  str "你是一個專業的推薦系統。參考歷史對話: \x7bhistory_context\x7d。根據以下用戶偏好：\x27\x7buser_input\x7d\x27，請提供一個詳細且具吸引力的產品推薦。"

/-- Template for the support mode (`prompt_templates.py` line 15). -/
def supTemplate : Str :=
  str "你是一個專業的客服機器人。參考歷史對話: \x7bhistory_context\x7d。使用者提問：\x27\x7buser_input\x7d\x27，請提供一個清晰、專業且友善的回應。"

/-- Template for the ecommerce mode (`prompt_templates.py` line 16). -/
def ecoTemplate : Str :=
  str "你是一位有創意的電商文案寫手。參考歷史對話: \x7bhistory_context\x7d。根據以下輸入：\x27\x7buser_input\x7d\x27，生成一段引人注目的產品描述或促銷文案。"

/-- Template for the general (default) mode (`prompt_templates.py` line 17). -/
def genTemplate : Str := str "\x7bhistory_context\x7d \x7buser_input\x7d"

/-- The `templates` dictionary with the `.get(mode, templates['general'])`
fallback of `prompt_templates.py` line 19. -/
def templates (mode : Str) : Str :=
  if mode = str "recommendation" then recTemplate
  else if mode = str "support" then supTemplate
  else if mode = str "ecommerce" then ecoTemplate
  else if mode = str "general" then genTemplate
  else genTemplate

/-- Part of the scaffold before the history slot. -/
def tmplA (mode : Str) : Str :=
  if mode = str "recommendation" then str "你是一個專業的推薦系統。參考歷史對話: "
  else if mode = str "support" then str "你是一個專業的客服機器人。參考歷史對話: "
  else if mode = str "ecommerce" then str "你是一位有創意的電商文案寫手。參考歷史對話: "
  else []

/-- Part of the scaffold between the history slot and the user-input slot. -/
def tmplB (mode : Str) : Str :=
  if mode = str "recommendation" then str "。根據以下用戶偏好：\x27"
  else if mode = str "support" then str "。使用者提問：\x27"
  else if mode = str "ecommerce" then str "。根據以下輸入：\x27"
  else str " "

/-- Part of the scaffold after the user-input slot. -/
def tmplC (mode : Str) : Str :=
  if mode = str "recommendation" then str "\x27，請提供一個詳細且具吸引力的產品推薦。"
  else if mode = str "support" then str "\x27，請提供一個清晰、專業且友善的回應。"
  else if mode = str "ecommerce" then str "\x27，生成一段引人注目的產品描述或促銷文案。"
  else []

/-- Python `template.format(history_context=h, user_input=u)` specialized to
the fixed scaffolds above: scan the template and substitute the two literal
fields.  Substituted text is emitted, not re-scanned, as in Python. -/
def pyFormat (hctx uinput : Str) : Str → Str
  | [] => []
  | c :: rest =>
    if begins histPat (c :: rest) then hctx ++ pyFormat hctx uinput (rest.drop (histPat.length - 1))
    else if begins userPat (c :: rest) then uinput ++ pyFormat hctx uinput (rest.drop (userPat.length - 1))
    else c :: pyFormat hctx uinput rest
termination_by s => s.length
decreasing_by
  · simp only [List.length_drop, List.length_cons]; omega
  · simp only [List.length_drop, List.length_cons]; omega
  · simp only [List.length_cons]; omega

/-- Python `s.format(history_context=h)` (second formatting stage in
`ai_core.py` line 47): substitute the history field only. -/
def pyFormatHist (hctx : Str) : Str → Str
  | [] => []
  | c :: rest =>
    if begins histPat (c :: rest) then hctx ++ pyFormatHist hctx (rest.drop (histPat.length - 1))
    else c :: pyFormatHist hctx rest
termination_by s => s.length
decreasing_by
  · simp only [List.length_drop, List.length_cons]; omega
  · simp only [List.length_cons]; omega

/-- `get_prompt_template(mode)(user_input)` from `prompt_templates.py`
line 20: the selected template with the history field replaced by the literal
field text again and the user field replaced by the sanitized input. -/
def get_prompt_template (mode user_input : Str) : Str :=
  pyFormat histPat (sanitize_input user_input) (templates mode)

/-- Full prompt construction from `ai_core.py` line 47: render the template
for the user input, then substitute the joined history context. -/
def full_prompt (mode hctx user_input : Str) : Str :=
  pyFormatHist hctx (get_prompt_template mode user_input)

example : sanitize_input (str "ignore \x7bsystem\x7d prompt") = str "ignore system prompt" := by decide

/-- Fallback output when the model pipeline is not loaded
(`ai_core.py` line 36). -/
def unavailMsg : Str := str "錯誤: AI 模型不可用。"

/-- Fallback output when generation raises an internal error
(`ai_core.py` line 62). -/
def genErrMsg : Str := str "抱歉，生成回應時發生錯誤。"

/-- Python `c.isspace()` for the ASCII whitespace characters relevant to
`str.strip()` on generated text. -/
def isWs (c : Char) : Bool := c = ' ' ∨ c = '\n' ∨ c = '\t' ∨ c = '\r'

/-- Python `s.strip()`: drop whitespace from both ends. -/
def pyStrip (s : Str) : Str := ((s.dropWhile isWs).reverse.dropWhile isWs).reverse

/-- Python `" ".join(history)` (`ai_core.py` line 46). -/
def joinSpace (history : List Str) : Str := List.intercalate [' '] history

/-- Post-processing of one generated text (`ai_core.py` line 55): strip the
echoed prompt from the front when present. -/
def cleanOutput (full gen : Str) : Str :=
  if begins full gen then pyStrip (gen.drop full.length) else gen

/-- Result of one invocation of the `generator` pipeline: either a list of
generated texts (one per prompt) or a raised internal error. -/
inductive BackendOut where
  | ok (texts : List Str)
  | err
deriving DecidableEq

/-- The generation backend environment: whether the model pipeline loaded at
startup, and an oracle giving the result of the n-th pipeline invocation. -/
structure Env where
  generatorLoaded : Bool
  oracle : Nat → BackendOut

/-- `ai_core.generate_response(prompt, history, max_length, mode)`.
`prompt` is a single string (`Sum.inl`) or a batch (`Sum.inr`); `calls` is
the number of pipeline invocations performed so far, returned incremented
when the pipeline was invoked.  The broad `except` of `ai_core.py` lines
60-62 is the error fallback; an out-of-range index into `full_prompts`
(result longer than the prompt list) raises inside the same `try` and is
mapped to the same fallback. -/
def generate_response (env : Env) (calls : Nat) (prompt : Sum Str (List Str))
    (history : List Str) (maxLen : Nat) (mode : Str) : (Sum Str (List Str)) × Nat :=
  if env.generatorLoaded = false then
    match prompt with
    | .inl _ => (.inl unavailMsg, calls)
    | .inr ps => (.inr (List.replicate ps.length unavailMsg), calls)
  else
    let prompts := match prompt with | .inl p => [p] | .inr ps => ps
    let hctx := joinSpace history
    let fulls := prompts.map (fun p => full_prompt mode hctx p)
    match env.oracle calls with
    | .err =>
      match prompt with
      | .inl _ => (.inl genErrMsg, calls + 1)
      | .inr ps => (.inr (List.replicate ps.length genErrMsg), calls + 1)
    | .ok texts =>
      if fulls.length < texts.length then
        match prompt with
        | .inl _ => (.inl genErrMsg, calls + 1)
        | .inr ps => (.inr (List.replicate ps.length genErrMsg), calls + 1)
      else
        let outputs := List.zipWith cleanOutput fulls texts
        match prompt with
        | .inl _ =>
          match outputs with
          | o :: _ => (.inl o, calls + 1)
          | [] => (.inl genErrMsg, calls + 1)
        | .inr _ => (.inr outputs, calls + 1)

/-- Decimal digits of `n`, most significant first, with structural fuel so
that the kernel can evaluate it (`fuel` is an upper bound on `n`). -/
def natDigitsAux : Nat → Nat → Str
  | 0, _ => []
  | fuel + 1, n =>
    if n = 0 then [] else natDigitsAux fuel (n / 10) ++ [Char.ofNat (48 + n % 10)]

/-- Python `str(n)` for a non-negative integer. -/
def natStr (n : Nat) : Str := if n = 0 then [Char.ofNat 48] else natDigitsAux n n

example : natStr 100 = str "100" := by decide

/-- Values held by the Redis store: a JSON-encoded history list (under a
user id key) or a JSON-encoded response object (under a cache key). -/
inductive RVal where
  | hist (h : List Str)
  | resp (input output : Str) (history : List Str)
deriving DecidableEq

/-- Point update of a key-value map. -/
def setKV (kv : Str → Option RVal) (k : Str) (v : RVal) : Str → Option RVal :=
  fun k2 => if k2 = k then some v else kv k2

/-- Key of the in-process `lru_cache` on `generate_response_with_cache`:
the exact argument tuple `(prompt, history, max_length, mode)`. -/
abbrev MemoKey := Str × List Str × Nat × Str

/-- State threaded through the handlers: the Redis connection (`none` when
the startup connection failed), the in-process memoization table in
most-recently-used-first order, and the number of backend pipeline
invocations performed so far. -/
structure SysState where
  redis : Option (Str → Option RVal)
  memo : List (MemoKey × Str)
  calls : Nat

/-- Lookup in the memoization table. -/
def memoFind (k : MemoKey) : List (MemoKey × Str) → Option Str
  | [] => none
  | (k2, v) :: rest => if k2 = k then some v else memoFind k rest

/-- On a memoization hit, `functools.lru_cache` moves the entry to
most-recently-used position. -/
def lruTouch (k : MemoKey) (memo : List (MemoKey × Str)) : List (MemoKey × Str) :=
  match memoFind k memo with
  | some v => (k, v) :: memo.filter (fun e => decide (e.1 ≠ k))
  | none => memo

/-- The `maxsize=100` bound of the `lru_cache` on
`generate_response_with_cache` (`app.py` line 133). -/
def LRU_MAXSIZE : Nat := 100

/-- `app.generate_response_with_cache(prompt, tuple(history), max_length,
mode)` (`app.py` lines 133-136): memoized call into the backend.  The inner
`lru_cache` on `ai_core.generate_response` keys on the same tuple, so below
the 100-entry bound it never observes a distinct call and is absorbed into
this table. -/
def generate_response_with_cache (env : Env) (st : SysState) (prompt : Str)
    (history : List Str) (maxLen : Nat) (mode : Str) : Str × SysState :=
  let k : MemoKey := (prompt, history, maxLen, mode)
  match memoFind k st.memo with
  | some v => (v, { st with memo := lruTouch k st.memo })
  | none =>
    let res := generate_response env st.calls (.inl prompt) history maxLen mode
    let o := match res.1 with | .inl s => s | .inr _ => genErrMsg
    (o, { st with memo := ((k, o) :: st.memo).take LRU_MAXSIZE, calls := res.2 })

/-- `app.get_redis_key(prompt, mode, max_length)` (`app.py` lines 138-140). -/
def get_redis_key (prompt mode : Str) (maxLen : Nat) : Str :=
  str "cache:" ++ prompt ++ str ":" ++ mode ++ str ":" ++ natStr maxLen

/-- `app.get_response_from_cache` (`app.py` lines 142-149): `none` when the
store is absent or has no entry under the key. -/
def get_response_from_cache (st : SysState) (prompt mode : Str) (maxLen : Nat) : Option RVal :=
  match st.redis with
  | none => none
  | some kv => kv (get_redis_key prompt mode maxLen)

/-- `app.set_response_to_cache` (`app.py` lines 151-154): store under the
cache key; a no-op when the store is absent. -/
def set_response_to_cache (st : SysState) (prompt mode : Str) (maxLen : Nat) (v : RVal) : SysState :=
  match st.redis with
  | none => st
  | some kv => { st with redis := some (setKV kv (get_redis_key prompt mode maxLen) v) }

/-- `VALID_MODES` (`app.py` line 75). -/
def VALID_MODES : List Str :=
  [str "general", str "recommendation", str "support", str "ecommerce"]

/-- The 401 message of `app.py` lines 211 and 317. -/
def apiKeyErrMsg : Str := str "無效的 API Key。"

/-- The invalid-mode message of `app.py` lines 215 and 320: the f-string
renders the Python list `VALID_MODES`. -/
def modeErrMsg : Str :=
  str "mode 必須是 [\x27general\x27, \x27recommendation\x27, \x27support\x27, \x27ecommerce\x27] 之一。"

/-- The 500 message of the single-prompt handler (`app.py` line 260). -/
def internalErrMsg : Str := str "發生內部伺服器錯誤。"

/-- The 500 message of the batch handler (`app.py` line 358). -/
def batchErrMsg : Str := str "批次生成時發生內部伺服器錯誤。"

/-- Python `l[-6:]` generalized: the last `n` elements of a list. -/
def lastN (n : Nat) (l : List Str) : List Str := l.drop (l.length - n)

/-- Reading one user's history (`app.py` lines 229-235 and 325-331): absent
key gives an empty history; a JSON object (a cached response) stored under
the key makes `[-6:]` raise a `TypeError`, which the narrow `except` clause
does not catch, so it escapes to the handler's outer `except`. -/
def loadHistory (kv : Str → Option RVal) (uid : Str) : Except Unit (List Str) :=
  match kv uid with
  | none => .ok []
  | some (.hist h) => .ok (lastN 6 h)
  | some (.resp _ _ _) => .error ()

/-- The whole history-load step, including the Python truthiness guard
`if user_id and redis_client` (an empty user id is falsy). -/
def historyLoad (st : SysState) (userId : Option Str) : Except Unit (List Str) :=
  match userId, st.redis with
  | some uid, some kv => if uid = [] then .ok [] else loadHistory kv uid
  | _, _ => .ok []

/-- HTTP-level responses of the two handlers, as seen by the client. -/
inductive Resp where
  | ok (input output : Str) (history : List Str)
  | okBatch (inputs outputs : List Str) (history : List Str)
  | errorResp (status : Nat) (msg : Str)
deriving DecidableEq

/-- The `output` field of a successful single-prompt response. -/
def respOutput : Resp → Option Str
  | .ok _ o _ => some o
  | _ => none

/-- The `/api/generate` handler `generate_text` (`app.py` lines 201-260).
`apiKeyOk` is the result of `validate_api_key` on the request header. -/
def generate_text (env : Env) (st : SysState) (apiKeyOk : Bool) (prompt : Str)
    (userId : Option Str) (maxLen : Nat) (mode : Str) : Resp × SysState :=
  if apiKeyOk = false then (.errorResp 401 apiKeyErrMsg, st)
  else if mode ∉ VALID_MODES then (.errorResp 400 modeErrMsg, st)
  else
    match get_response_from_cache st prompt mode maxLen with
    | some (.resp _ o h) => (.ok prompt o h, st)
    | some (.hist _) => (.errorResp 500 internalErrMsg, st)
    | none =>
      match historyLoad st userId with
      | .error _ => (.errorResp 500 internalErrMsg, st)
      | .ok history =>
        let res := generate_response_with_cache env st prompt history maxLen mode
        let output := res.1
        let st2 := res.2
        let new_history := history ++ [str "User: " ++ prompt, str "AI: " ++ output]
        match userId, st2.redis with
        | some uid, some kv =>
          if uid = [] then
            (.ok prompt output [],
             set_response_to_cache st2 prompt mode maxLen (.resp prompt output []))
          else
            let st3 := { st2 with redis := some (setKV kv uid (.hist (new_history.take 6))) }
            (.ok prompt output new_history,
             set_response_to_cache st3 prompt mode maxLen (.resp prompt output new_history))
        | _, _ =>
          (.ok prompt output [],
           set_response_to_cache st2 prompt mode maxLen (.resp prompt output []))

/-- The per-prompt loop of the batch handler (`app.py` lines 334-343): each
prompt is looked up in the shared cache, generated on a miss against the
fixed pre-batch `history` snapshot, and written back; a list stored under a
cache key makes `cached_response['output']` raise a `TypeError`, aborting
the whole request with the state reached so far. -/
def processBatch (env : Env) (history : List Str) (maxLen : Nat) (mode : Str) :
    SysState → List Str → Except SysState (List Str × SysState)
  | st, [] => .ok ([], st)
  | st, p :: rest =>
    match get_response_from_cache st p mode maxLen with
    | some (.resp _ o _) =>
      (processBatch env history maxLen mode st rest).map (fun x => (o :: x.1, x.2))
    | some (.hist _) => .error st
    | none =>
      let res := generate_response_with_cache env st p history maxLen mode
      let st2 := set_response_to_cache res.2 p mode maxLen (.resp p res.1 history)
      (processBatch env history maxLen mode st2 rest).map (fun x => (res.1 :: x.1, x.2))

/-- The `/api/generate_batch` handler `generate_batch_text`
(`app.py` lines 307-358). -/
def generate_batch_text (env : Env) (st : SysState) (apiKeyOk : Bool)
    (prompts : List Str) (userId : Option Str) (maxLen : Nat) (mode : Str) : Resp × SysState :=
  if apiKeyOk = false then (.errorResp 401 apiKeyErrMsg, st)
  else if mode ∉ VALID_MODES then (.errorResp 400 modeErrMsg, st)
  else
    match historyLoad st userId with
    | .error _ => (.errorResp 500 batchErrMsg, st)
    | .ok history =>
      match processBatch env history maxLen mode st prompts with
      | .error stE => (.errorResp 500 batchErrMsg, stE)
      | .ok x =>
        let outputs := x.1
        let st2 := x.2
        let new_history := history ++ prompts.map (fun p => str "User: " ++ p)
          ++ outputs.map (fun o => str "AI: " ++ o)
        match userId, st2.redis with
        | some uid, some kv =>
          if uid = [] then (.okBatch prompts outputs (new_history.take 6), st2)
          else
            (.okBatch prompts outputs (new_history.take 6),
             { st2 with redis := some (setKV kv uid (.hist (new_history.take 6))) })
        | _, _ => (.okBatch prompts outputs (new_history.take 6), st2)

/-- Read one key of the state's Redis store (absent store reads as absent). -/
def readKey (st : SysState) (k : Str) : Option RVal :=
  match st.redis with
  | some kv => kv k
  | none => none

/-- Concrete environment whose model pipeline failed to load. -/
def env0 : Env := ⟨false, fun _ => .err⟩

/-- Concrete environment whose pipeline raises on every invocation. -/
def envErr : Env := ⟨true, fun _ => .err⟩

/-- Concrete state with no Redis connection and empty memoization table. -/
def st0 : SysState := ⟨none, [], 0⟩

/-- Concrete user id used in concrete runs. -/
def uidW : Str := str "u"

/-- A concrete six-entry (full) conversation history. -/
def h6 : List Str :=
  [str "User: a", str "AI: b", str "User: c", str "AI: d", str "User: e", str "AI: f"]

/-- Concrete store holding only the history `h6` for user `uidW`. -/
def kvH : Str → Option RVal := fun k => if k = uidW then some (.hist h6) else none

/-- Concrete state whose Redis store is `kvH`. -/
def stH : SysState := ⟨some kvH, [], 0⟩

/-- Concrete prompt used in concrete runs. -/
def pW : Str := str "p"

/-- Concrete cached output used in concrete runs. -/
def oW : Str := str "o"

/-- Concrete cached history used in concrete runs. -/
def hW : List Str := [str "User: x", str "AI: y"]

/-- Concrete store holding one cached response for `(pW, general, 100)`. -/
def kvC : Str → Option RVal :=
  fun k => if k = get_redis_key pW (str "general") 100 then some (.resp pW oW hW) else none

/-- Concrete state whose Redis store is `kvC`. -/
def stC : SysState := ⟨some kvC, [], 0⟩

theorem begins_iff (p : Str) : ∀ s : Str, begins p s = true ↔ ∃ t, p ++ t = s := by
  induction p with
  | nil => intro s; simp [begins]
  | cons c p ih =>
    intro s
    cases s with
    | nil =>
      simp only [begins]
      constructor
      · intro h; exact absurd h (by simp)
      · rintro ⟨t, ht⟩; exact absurd ht (by simp)
    | cons d s =>
      by_cases hcd : c = d
      · subst hcd
        simp [begins, ih]
      · simp [begins, hcd]

theorem containsSeq_cons (pat : Str) (c : Char) (l : Str) :
    containsSeq pat (c :: l) ↔ (∃ t, pat ++ t = c :: l) ∨ containsSeq pat l := by
  constructor
  · rintro ⟨a, b, hab⟩
    cases a with
    | nil => exact Or.inl ⟨b, by simpa using hab.symm⟩
    | cons x a =>
      simp only [List.cons_append, List.cons.injEq] at hab
      exact Or.inr ⟨a, b, hab.2⟩
  · rintro (⟨t, ht⟩ | ⟨a, b, hab⟩)
    · exact ⟨[], t, by simp [ht.symm]⟩
    · exact ⟨c :: a, b, by simp [hab]⟩

theorem containsSeq_iff (pat s : Str) : containsSeq pat s ↔ containsSeqB pat s = true := by
  induction s with
  | nil =>
    cases pat with
    | nil =>
      simp only [containsSeqB, begins]
      exact iff_of_true ⟨[], [], rfl⟩ trivial
    | cons c p =>
      simp only [containsSeqB, begins]
      constructor
      · rintro ⟨a, b, hab⟩
        exact absurd hab.symm (by simp)
      · intro h; exact absurd h (by simp)
  | cons c rest ih =>
    rw [containsSeq_cons]
    simp only [containsSeqB, Bool.or_eq_true, ← begins_iff, ih]

theorem begins_cons_ne (p : Str) (a c : Char) (s : Str) (h : a ≠ c) :
    begins (a :: p) (c :: s) = false := by
  simp [begins, h]

theorem begins_append_self (p : Str) : ∀ t : Str, begins p (p ++ t) = true := by
  induction p with
  | nil => intro t; rfl
  | cons c p ih => intro t; simp [begins, ih]

theorem pyDeleteChar_not_mem (c : Char) (s : Str) : c ∉ pyDeleteChar c s := by
  induction s with
  | nil => simp [pyDeleteChar]
  | cons d rest ih =>
    by_cases hd : d = c
    · simpa [pyDeleteChar, hd] using ih
    · simp [pyDeleteChar, hd, ih, Ne.symm hd]

theorem mem_pyDeleteChar (c x : Char) (s : Str) (hx : x ∈ pyDeleteChar c s) : x ∈ s := by
  induction s with
  | nil => simpa [pyDeleteChar] using hx
  | cons d rest ih =>
    by_cases hd : d = c
    · simp only [pyDeleteChar, if_pos hd] at hx
      exact List.mem_cons_of_mem d (ih hx)
    · simp only [pyDeleteChar, if_neg hd, List.mem_cons] at hx
      rcases hx with rfl | hx
      · exact List.mem_cons_self x rest
      · exact List.mem_cons_of_mem d (ih hx)

theorem mem_pyDeleteTriple (b x : Char) :
    ∀ (n : Nat) (s : Str), s.length ≤ n → x ∈ pyDeleteTriple b s → x ∈ s := by
  intro n
  induction n with
  | zero =>
    intro s hs hx
    rw [List.length_eq_zero.mp (Nat.le_zero.mp hs)] at hx ⊢
    simpa [pyDeleteTriple] using hx
  | succ n ih =>
    intro s hs hx
    match s with
    | [] => simpa [pyDeleteTriple] using hx
    | [d] => simpa [pyDeleteTriple] using hx
    | [d, e] => simpa [pyDeleteTriple] using hx
    | d :: e :: f :: rest =>
      by_cases hg : d = b ∧ e = b ∧ f = b
      · simp only [pyDeleteTriple, if_pos hg] at hx
        have : x ∈ rest := ih rest (by simp at hs; omega) hx
        simp [this]
      · simp only [pyDeleteTriple, if_neg hg, List.mem_cons] at hx
        rcases hx with rfl | hx
        · exact List.mem_cons_self x _
        · have : x ∈ e :: f :: rest := ih (e :: f :: rest) (by simp at hs ⊢; omega) hx
          exact List.mem_cons_of_mem d this

theorem pyDeleteTriple_cons_ne (b e : Char) (t : Str) (he : e ≠ b) :
    ∃ t2, pyDeleteTriple b (e :: t) = e :: t2 := by
  match t with
  | [] => exact ⟨[], rfl⟩
  | [f] => exact ⟨[f], rfl⟩
  | f :: g :: t2 =>
    refine ⟨pyDeleteTriple b (f :: g :: t2), ?_⟩
    have hg : ¬(e = b ∧ f = b ∧ g = b) := fun h => he h.1
    simp [pyDeleteTriple, hg]

theorem triple_head_safe (b e f : Char) (rest : Str) (hef : ¬(e = b ∧ f = b)) :
    begins [b, b] (pyDeleteTriple b (e :: f :: rest)) = false := by
  by_cases he : e = b
  · have hf : f ≠ b := fun h => hef ⟨he, h⟩
    match rest with
    | [] => simp [pyDeleteTriple, begins, he, Ne.symm hf]
    | g :: rest2 =>
      have hg : ¬(e = b ∧ f = b ∧ g = b) := by
        rintro ⟨-, hfb, -⟩; exact hf hfb
      rw [pyDeleteTriple, if_neg hg]
      obtain ⟨t2, ht2⟩ := pyDeleteTriple_cons_ne b f (g :: rest2) hf
      rw [ht2]
      simp [begins, he, Ne.symm hf]
  · obtain ⟨t2, ht2⟩ := pyDeleteTriple_cons_ne b e (f :: rest) he
    rw [ht2, begins_cons_ne _ _ _ _ (Ne.symm he)]

theorem containsSeq_length (pat s : Str) (h : containsSeq pat s) : pat.length ≤ s.length := by
  obtain ⟨a, c, rfl⟩ := h
  simp only [List.length_append]
  omega

theorem pyDeleteTriple_no_triple (b : Char) :
    ∀ (n : Nat) (s : Str), s.length ≤ n → ¬ containsSeq [b, b, b] (pyDeleteTriple b s) := by
  intro n
  induction n with
  | zero =>
    intro s hs hc
    rw [List.length_eq_zero.mp (Nat.le_zero.mp hs)] at hc
    have := containsSeq_length _ _ hc
    simp [pyDeleteTriple] at this
  | succ n ih =>
    intro s hs hc
    match s with
    | [] =>
      have := containsSeq_length _ _ hc
      simp [pyDeleteTriple] at this
    | [d] =>
      have := containsSeq_length _ _ hc
      simp [pyDeleteTriple] at this
    | [d, e] =>
      have := containsSeq_length _ _ hc
      simp [pyDeleteTriple] at this
    | d :: e :: f :: rest =>
      by_cases hg : d = b ∧ e = b ∧ f = b
      · rw [pyDeleteTriple, if_pos hg] at hc
        exact ih rest (by simp at hs; omega) hc
      · rw [pyDeleteTriple, if_neg hg] at hc
        rw [containsSeq_cons] at hc
        rcases hc with ⟨t, ht⟩ | hc
        · have hd : d = b := by
            have := List.cons.injEq b ([b, b] ++ t) d (pyDeleteTriple b (e :: f :: rest)) ▸ ht
            exact this.1.symm
          have hX : pyDeleteTriple b (e :: f :: rest) = b :: b :: t := by
            have := List.cons.injEq b ([b, b] ++ t) d (pyDeleteTriple b (e :: f :: rest)) ▸ ht
            exact this.2.symm
          have hef : ¬(e = b ∧ f = b) := fun h => hg ⟨hd, h⟩
          have hfalse := triple_head_safe b e f rest hef
          rw [hX] at hfalse
          simp [begins] at hfalse
        · exact ih (e :: f :: rest) (by simp at hs ⊢; omega) hc

theorem sanitize_no_lb (s : Str) : lb ∉ sanitize_input s := by
  intro hmem
  exact pyDeleteChar_not_mem lb s
    (mem_pyDeleteChar rb lb _
      (mem_pyDeleteTriple bq lb _ _ (Nat.le_refl _) hmem))

theorem sanitize_no_rb (s : Str) : rb ∉ sanitize_input s := by
  intro hmem
  exact pyDeleteChar_not_mem rb _ (mem_pyDeleteTriple bq rb _ _ (Nat.le_refl _) hmem)

theorem sanitize_no_triple (s : Str) : ¬ containsSeq [bq, bq, bq] (sanitize_input s) :=
  pyDeleteTriple_no_triple bq _ _ (Nat.le_refl _)

theorem histPat_cons : histPat = lb :: str "history_context\x7d" := by decide

theorem histPat_cons2 : histPat = lb :: 'h' :: str "istory_context\x7d" := by decide

theorem userPat_cons : userPat = lb :: str "user_input\x7d" := by decide

theorem userPat_cons2 : userPat = lb :: 'u' :: str "ser_input\x7d" := by decide

theorem pyFormat_cons_ne (hctx u : Str) (c : Char) (s : Str) (hc : c ≠ lb) :
    pyFormat hctx u (c :: s) = c :: pyFormat hctx u s := by
  rw [pyFormat, histPat_cons, userPat_cons,
    begins_cons_ne _ _ _ _ (Ne.symm hc), begins_cons_ne _ _ _ _ (Ne.symm hc)]
  simp

theorem pyFormat_clean (hctx u : Str) :
    ∀ (A s : Str), (∀ c ∈ A, c ≠ lb) → pyFormat hctx u (A ++ s) = A ++ pyFormat hctx u s := by
  intro A
  induction A with
  | nil => intro s _; rfl
  | cons c A ih =>
    intro s hA
    rw [List.cons_append, pyFormat_cons_ne _ _ _ _ (hA c (List.mem_cons_self c A)),
      ih s (fun x hx => hA x (List.mem_cons_of_mem c hx))]
    rfl

theorem pyFormat_hist (hctx u s : Str) :
    pyFormat hctx u (histPat ++ s) = hctx ++ pyFormat hctx u s := by
  have hshape : histPat ++ s = lb :: (str "history_context\x7d" ++ s) := by
    rw [histPat_cons]; rfl
  rw [hshape, pyFormat]
  have hb : begins histPat (lb :: (str "history_context\x7d" ++ s)) = true := by
    rw [← List.cons_append, ← histPat_cons]
    exact begins_append_self histPat s
  rw [hb]
  have hlen : histPat.length - 1 = (str "history_context\x7d").length := by decide
  simp only [if_true]
  rw [hlen, List.drop_left]

theorem pyFormat_user (hctx u s : Str) :
    pyFormat hctx u (userPat ++ s) = u ++ pyFormat hctx u s := by
  have hshape : userPat ++ s = lb :: (str "user_input\x7d" ++ s) := by
    rw [userPat_cons]; rfl
  rw [hshape, pyFormat]
  have hb1 : begins histPat (lb :: (str "user_input\x7d" ++ s)) = false := by
    rw [histPat_cons2]
    have : str "user_input\x7d" ++ s = 'u' :: (str "ser_input\x7d" ++ s) := rfl
    rw [this]
    simp [begins]
  have hb2 : begins userPat (lb :: (str "user_input\x7d" ++ s)) = true := by
    rw [← List.cons_append, ← userPat_cons]
    exact begins_append_self userPat s
  rw [hb1, hb2]
  have hlen : userPat.length - 1 = (str "user_input\x7d").length := by decide
  simp only [Bool.false_eq_true, if_false, if_true]
  rw [hlen, List.drop_left]

theorem pyFormat_id (hctx u : Str) :
    ∀ s : Str, (∀ c ∈ s, c ≠ lb) → pyFormat hctx u s = s := by
  intro s
  induction s with
  | nil => intro _; simp [pyFormat]
  | cons c s ih =>
    intro hs
    rw [pyFormat_cons_ne _ _ _ _ (hs c (List.mem_cons_self c s)),
      ih (fun x hx => hs x (List.mem_cons_of_mem c hx))]

theorem pyFormatHist_cons_ne (hctx : Str) (c : Char) (s : Str) (hc : c ≠ lb) :
    pyFormatHist hctx (c :: s) = c :: pyFormatHist hctx s := by
  rw [pyFormatHist, histPat_cons, begins_cons_ne _ _ _ _ (Ne.symm hc)]
  simp

theorem pyFormatHist_clean (hctx : Str) :
    ∀ (A s : Str), (∀ c ∈ A, c ≠ lb) → pyFormatHist hctx (A ++ s) = A ++ pyFormatHist hctx s := by
  intro A
  induction A with
  | nil => intro s _; rfl
  | cons c A ih =>
    intro s hA
    rw [List.cons_append, pyFormatHist_cons_ne _ _ _ (hA c (List.mem_cons_self c A)),
      ih s (fun x hx => hA x (List.mem_cons_of_mem c hx))]
    rfl

theorem pyFormatHist_hist (hctx s : Str) :
    pyFormatHist hctx (histPat ++ s) = hctx ++ pyFormatHist hctx s := by
  have hshape : histPat ++ s = lb :: (str "history_context\x7d" ++ s) := by
    rw [histPat_cons]; rfl
  rw [hshape, pyFormatHist]
  have hb : begins histPat (lb :: (str "history_context\x7d" ++ s)) = true := by
    rw [← List.cons_append, ← histPat_cons]
    exact begins_append_self histPat s
  rw [hb]
  have hlen : histPat.length - 1 = (str "history_context\x7d").length := by decide
  simp only [if_true]
  rw [hlen, List.drop_left]

theorem pyFormatHist_id (hctx : Str) :
    ∀ s : Str, (∀ c ∈ s, c ≠ lb) → pyFormatHist hctx s = s := by
  intro s
  induction s with
  | nil => intro _; simp [pyFormatHist]
  | cons c s ih =>
    intro hs
    rw [pyFormatHist_cons_ne _ _ _ (hs c (List.mem_cons_self c s)),
      ih (fun x hx => hs x (List.mem_cons_of_mem c hx))]

theorem pyFormat_scaffold (hctx u A B C : Str)
    (hA : ∀ c ∈ A, c ≠ lb) (hB : ∀ c ∈ B, c ≠ lb) (hC : ∀ c ∈ C, c ≠ lb) :
    pyFormat hctx u (A ++ histPat ++ B ++ userPat ++ C)
      = A ++ hctx ++ B ++ u ++ C := by
  rw [List.append_assoc, List.append_assoc, List.append_assoc,
    pyFormat_clean _ _ _ _ hA, pyFormat_hist,
    pyFormat_clean _ _ _ _ hB, pyFormat_user, pyFormat_id _ _ _ hC]
  simp [List.append_assoc]

theorem pyFormatHist_scaffold (hctx A B u C : Str)
    (hA : ∀ c ∈ A, c ≠ lb) (hB : ∀ c ∈ B, c ≠ lb) (hu : ∀ c ∈ u, c ≠ lb)
    (hC : ∀ c ∈ C, c ≠ lb) :
    pyFormatHist hctx (A ++ histPat ++ B ++ u ++ C)
      = A ++ hctx ++ B ++ u ++ C := by
  rw [List.append_assoc, List.append_assoc, List.append_assoc,
    pyFormatHist_clean _ _ _ hA, pyFormatHist_hist,
    pyFormatHist_clean _ _ _ hB, pyFormatHist_clean _ _ _ hu,
    pyFormatHist_id _ _ hC]
  simp [List.append_assoc]

theorem templates_decomp (mode : Str) :
    templates mode = tmplA mode ++ histPat ++ tmplB mode ++ userPat ++ tmplC mode := by
  unfold templates tmplA tmplB tmplC
  split_ifs <;> decide

theorem tmpl_clean (mode : Str) :
    (∀ c ∈ tmplA mode, c ≠ lb) ∧ (∀ c ∈ tmplB mode, c ≠ lb) ∧ (∀ c ∈ tmplC mode, c ≠ lb) := by
  unfold tmplA tmplB tmplC
  split_ifs <;> exact ⟨by decide, by decide, by decide⟩

theorem get_prompt_template_shape (mode input : Str) :
    get_prompt_template mode input
      = tmplA mode ++ histPat ++ tmplB mode ++ sanitize_input input ++ tmplC mode := by
  obtain ⟨hA, hB, hC⟩ := tmpl_clean mode
  rw [get_prompt_template, templates_decomp, pyFormat_scaffold _ _ _ _ _ hA hB hC]

theorem full_prompt_shape (mode hctx input : Str) :
    full_prompt mode hctx input
      = tmplA mode ++ hctx ++ tmplB mode ++ sanitize_input input ++ tmplC mode := by
  obtain ⟨hA, hB, hC⟩ := tmpl_clean mode
  have hu : ∀ c ∈ sanitize_input input, c ≠ lb := by
    intro c hc hceq
    exact sanitize_no_lb input (hceq ▸ hc)
  rw [full_prompt, get_prompt_template_shape, pyFormatHist_scaffold _ _ _ _ _ hA hB hu hC]

/-- C3: for every mode (recognized or not), the rendered prompt embeds the
sanitized user input into the mode's scaffold, and the sanitized input
contains no left brace, no right brace, and no run of three consecutive
backquotes, so none of those sequences can appear in the user-input slot. -/
theorem spec_C3_sanitization (mode hctx input : Str) :
    get_prompt_template mode input
      = tmplA mode ++ histPat ++ tmplB mode ++ sanitize_input input ++ tmplC mode
    ∧ full_prompt mode hctx input
      = tmplA mode ++ hctx ++ tmplB mode ++ sanitize_input input ++ tmplC mode
    ∧ lb ∉ sanitize_input input
    ∧ rb ∉ sanitize_input input
    ∧ ¬ containsSeq [bq, bq, bq] (sanitize_input input) :=
  ⟨get_prompt_template_shape mode input, full_prompt_shape mode hctx input,
    sanitize_no_lb input, sanitize_no_rb input, sanitize_no_triple input⟩

theorem templates_fallback (mode : Str) (hm : mode ∉ VALID_MODES) :
    templates mode = genTemplate := by
  have h1 : mode ≠ str "recommendation" := fun h => hm (by simp [VALID_MODES, h])
  have h2 : mode ≠ str "support" := fun h => hm (by simp [VALID_MODES, h])
  have h3 : mode ≠ str "ecommerce" := fun h => hm (by simp [VALID_MODES, h])
  have h4 : mode ≠ str "general" := fun h => hm (by simp [VALID_MODES, h])
  rw [templates, if_neg h1, if_neg h2, if_neg h3, if_neg h4]

/-- C9: an unrecognized mode renders exactly what mode `general` renders, and
the `general` scaffold is the history context, a single space, and the
sanitized user input. -/
theorem spec_C9_general_fallback (mode hctx input : Str) (hm : mode ∉ VALID_MODES) :
    full_prompt mode hctx input = full_prompt (str "general") hctx input
    ∧ full_prompt (str "general") hctx input = hctx ++ str " " ++ sanitize_input input := by
  constructor
  · rw [full_prompt, full_prompt, get_prompt_template, get_prompt_template,
      templates_fallback mode hm]
    have : templates (str "general") = genTemplate := by decide
    rw [this]
  · rw [full_prompt_shape]
    have hA : tmplA (str "general") = [] := by decide
    have hB : tmplB (str "general") = str " " := by decide
    have hC : tmplC (str "general") = [] := by decide
    rw [hA, hB, hC]
    simp

theorem spec_C9_general_fallback_witness :
    (str "weird") ∉ VALID_MODES
    ∧ (full_prompt (str "weird") (str "H") (str "hi")
        = full_prompt (str "general") (str "H") (str "hi")
      ∧ full_prompt (str "general") (str "H") (str "hi")
        = str "H" ++ str " " ++ sanitize_input (str "hi")) :=
  ⟨by decide, spec_C9_general_fallback (str "weird") (str "H") (str "hi") (by decide)⟩

theorem natDigitsAux_zero : ∀ fuel : Nat, natDigitsAux fuel 0 = [] := by
  intro fuel
  cases fuel with
  | zero => rfl
  | succ n => simp [natDigitsAux]

theorem natDigitsAux_eq :
    ∀ (fuel n : Nat), 0 < n → n ≤ fuel →
    natDigitsAux fuel n = ((Nat.digits 10 n).map (fun d => Char.ofNat (48 + d))).reverse := by
  intro fuel
  induction fuel with
  | zero => intro n hn hf; omega
  | succ fuel ih =>
    intro n hn hf
    rw [natDigitsAux, if_neg (Nat.pos_iff_ne_zero.mp hn)]
    rw [Nat.digits_def' (by norm_num : 1 < 10) hn]
    simp only [List.map_cons, List.reverse_cons]
    by_cases hq : n / 10 = 0
    · rw [hq, natDigitsAux_zero]
      simp
    · rw [ih (n / 10) (Nat.pos_of_ne_zero hq)
        (by
          have := Nat.div_lt_self hn (by norm_num : 1 < 10)
          omega)]

theorem digit_char_ne_colon : ∀ d : Nat, d < 10 → Char.ofNat (48 + d) ≠ Char.ofNat 58 := by
  decide

theorem digit_char_inj :
    ∀ d1 : Nat, d1 < 10 → ∀ d2 : Nat, d2 < 10 →
      Char.ofNat (48 + d1) = Char.ofNat (48 + d2) → d1 = d2 := by
  decide

theorem natStr_no_colon (n : Nat) : Char.ofNat 58 ∉ natStr n := by
  by_cases hn : n = 0
  · subst hn; decide
  · rw [natStr, if_neg hn, natDigitsAux_eq n n (Nat.pos_of_ne_zero hn) (Nat.le_refl n)]
    intro hmem
    rw [List.mem_reverse, List.mem_map] at hmem
    obtain ⟨d, hd, hdc⟩ := hmem
    exact digit_char_ne_colon d (Nat.digits_lt_base (by norm_num) hd) hdc

theorem map_digit_char_inj :
    ∀ l1 l2 : List Nat, (∀ d ∈ l1, d < 10) → (∀ d ∈ l2, d < 10) →
      l1.map (fun d => Char.ofNat (48 + d)) = l2.map (fun d => Char.ofNat (48 + d)) →
      l1 = l2 := by
  intro l1
  induction l1 with
  | nil =>
    intro l2 _ _ h
    cases l2 with
    | nil => rfl
    | cons d t => exact absurd h.symm (by simp)
  | cons d1 t1 ih =>
    intro l2 h1 h2 h
    cases l2 with
    | nil => exact absurd h (by simp)
    | cons d2 t2 =>
      simp only [List.map_cons, List.cons.injEq] at h
      have hd : d1 = d2 :=
        digit_char_inj d1 (h1 d1 (List.mem_cons_self d1 t1))
          d2 (h2 d2 (List.mem_cons_self d2 t2)) h.1
      rw [hd, ih t2 (fun x hx => h1 x (List.mem_cons_of_mem d1 hx))
        (fun x hx => h2 x (List.mem_cons_of_mem d2 hx)) h.2]

theorem natStr_nonzero_ne_zero_repr (b : Nat) (hb : b ≠ 0) : natStr b ≠ natStr 0 := by
  rw [natStr, if_neg hb, natStr, if_pos rfl,
    natDigitsAux_eq b b (Nat.pos_of_ne_zero hb) (Nat.le_refl b)]
  intro h
  have h2 : (Nat.digits 10 b).map (fun d => Char.ofNat (48 + d)) = [Char.ofNat 48] := by
    have := congrArg List.reverse h
    simpa using this
  have hdig : Nat.digits 10 b = [0] := by
    cases hd : Nat.digits 10 b with
    | nil => rw [hd] at h2; exact absurd h2 (by simp)
    | cons d t =>
      rw [hd] at h2
      simp only [List.map_cons, List.cons.injEq, List.map_eq_nil_iff] at h2
      have hlt : d < 10 := Nat.digits_lt_base (by norm_num) (hd ▸ List.mem_cons_self d t)
      have hd0 : d = 0 := digit_char_inj d hlt 0 (by norm_num) (by simpa using h2.1)
      rw [hd0, h2.2]
  have := Nat.ofDigits_digits 10 b
  rw [hdig] at this
  simp [Nat.ofDigits] at this
  exact hb this.symm

theorem natStr_inj (a b : Nat) (h : natStr a = natStr b) : a = b := by
  by_cases ha : a = 0
  · by_cases hb : b = 0
    · rw [ha, hb]
    · exact absurd (ha ▸ h).symm (natStr_nonzero_ne_zero_repr b hb)
  · by_cases hb : b = 0
    · exact absurd (hb ▸ h) (natStr_nonzero_ne_zero_repr a ha)
    · rw [natStr, if_neg ha, natStr, if_neg hb,
        natDigitsAux_eq a a (Nat.pos_of_ne_zero ha) (Nat.le_refl a),
        natDigitsAux_eq b b (Nat.pos_of_ne_zero hb) (Nat.le_refl b)] at h
      have hmap := List.reverse_injective h
      have hdig := map_digit_char_inj _ _
        (fun d hd => Nat.digits_lt_base (by norm_num) hd)
        (fun d hd => Nat.digits_lt_base (by norm_num) hd) hmap
      have ha2 := Nat.ofDigits_digits 10 a
      rw [hdig, Nat.ofDigits_digits 10 b] at ha2
      exact ha2.symm

theorem append_single_eq (c : Char) :
    ∀ (a b a2 b2 : Str), c ∉ b → c ∉ b2 → a ++ c :: b = a2 ++ c :: b2 →
      a = a2 ∧ b = b2 := by
  intro a
  induction a with
  | nil =>
    intro b a2 b2 hb hb2 h
    cases a2 with
    | nil => simpa using h
    | cons x t =>
      simp only [List.nil_append, List.cons_append, List.cons.injEq] at h
      exact absurd (h.2 ▸ List.mem_append_right t (List.mem_cons_self c b2)) hb
  | cons x t ih =>
    intro b a2 b2 hb hb2 h
    cases a2 with
    | nil =>
      simp only [List.nil_append, List.cons_append, List.cons.injEq] at h
      exact absurd (h.2.symm ▸ List.mem_append_right t (List.mem_cons_self c b)) hb2
    | cons y t2 =>
      simp only [List.cons_append, List.cons.injEq] at h
      obtain ⟨rfl, h2⟩ := h
      obtain ⟨he, hb⟩ := ih b t2 b2 hb hb2 h2
      exact ⟨by rw [he], hb⟩

theorem mode_no_colon (m : Str) (hm : m ∈ VALID_MODES) : Char.ofNat 58 ∉ m := by
  simp only [VALID_MODES, List.mem_cons, List.not_mem_nil, or_false] at hm
  rcases hm with rfl | rfl | rfl | rfl <;> decide

theorem get_redis_key_inj (p1 m1 : Str) (l1 : Nat) (p2 m2 : Str) (l2 : Nat)
    (hm1 : m1 ∈ VALID_MODES) (hm2 : m2 ∈ VALID_MODES)
    (h : get_redis_key p1 m1 l1 = get_redis_key p2 m2 l2) :
    p1 = p2 ∧ m1 = m2 ∧ l1 = l2 := by
  have hcolon : str ":" = [Char.ofNat 58] := by decide
  have h1 : (str "cache:" ++ p1 ++ str ":" ++ m1) ++ Char.ofNat 58 :: natStr l1
      = (str "cache:" ++ p2 ++ str ":" ++ m2) ++ Char.ofNat 58 :: natStr l2 := by
    have := h
    rw [get_redis_key, get_redis_key, hcolon] at this
    simpa [List.append_assoc] using this
  obtain ⟨hA, hL⟩ := append_single_eq (Char.ofNat 58) _ _ _ _
    (natStr_no_colon l1) (natStr_no_colon l2) h1
  have hl : l1 = l2 := natStr_inj l1 l2 hL
  have h2 : (str "cache:" ++ p1) ++ Char.ofNat 58 :: m1
      = (str "cache:" ++ p2) ++ Char.ofNat 58 :: m2 := by
    have := hA
    rw [hcolon] at this
    simpa [List.append_assoc] using this
  obtain ⟨hP, hM⟩ := append_single_eq (Char.ofNat 58) _ _ _ _
    (mode_no_colon m1 hm1) (mode_no_colon m2 hm2) h2
  exact ⟨List.append_cancel_left hP, hM, hl⟩

/-- C10 as stated is false: there are no two distinct valid-mode triples
with the same key.  Valid modes contain no colon and the decimal rendering
of `maxLength` contains no colon, so the key determines `maxLength` (the
segment after the last colon), then the mode, then the prompt, even though
the prompt itself may contain colons. -/
theorem spec_C10_no_collision :
    ¬ ∃ (p1 m1 : Str) (l1 : Nat) (p2 m2 : Str) (l2 : Nat),
        m1 ∈ VALID_MODES ∧ m2 ∈ VALID_MODES
        ∧ (p1, m1, l1) ≠ (p2, m2, l2)
        ∧ get_redis_key p1 m1 l1 = get_redis_key p2 m2 l2 := by
  rintro ⟨p1, m1, l1, p2, m2, l2, hm1, hm2, hne, hk⟩
  obtain ⟨hp, hm, hl⟩ := get_redis_key_inj p1 m1 l1 p2 m2 l2 hm1 hm2 hk
  exact hne (by rw [hp, hm, hl])

/-- C10 amended: the shared-cache key derivation is injective on triples
whose mode is valid — equal keys force equal prompts, modes and maxLengths —
because neither a valid mode nor the decimal maxLength contains a colon. -/
theorem spec_C10_key_injective (p1 m1 : Str) (l1 : Nat) (p2 m2 : Str) (l2 : Nat)
    (hm1 : m1 ∈ VALID_MODES) (hm2 : m2 ∈ VALID_MODES)
    (h : get_redis_key p1 m1 l1 = get_redis_key p2 m2 l2) :
    p1 = p2 ∧ m1 = m2 ∧ l1 = l2 :=
  get_redis_key_inj p1 m1 l1 p2 m2 l2 hm1 hm2 h

theorem spec_C10_key_injective_witness :
    (str "general") ∈ VALID_MODES
    ∧ (str "a" = str "a" ∧ str "general" = str "general" ∧ 100 = 100) :=
  ⟨by decide,
    spec_C10_key_injective (str "a") (str "general") 100 (str "a") (str "general") 100
      (by decide) (by decide) rfl⟩

theorem generate_text_hit (env : Env) (st : SysState) (p : Str) (uid : Option Str)
    (l : Nat) (mode i o : Str) (h : List Str) (hm : mode ∈ VALID_MODES)
    (hc : get_response_from_cache st p mode l = some (.resp i o h)) :
    generate_text env st true p uid l mode = (.ok p o h, st) := by
  simp [generate_text, hm, hc]

theorem generate_text_invalid_mode (env : Env) (st : SysState) (p : Str)
    (uid : Option Str) (l : Nat) (mode : Str) (hm : mode ∉ VALID_MODES) :
    generate_text env st true p uid l mode = (.errorResp 400 modeErrMsg, st) := by
  simp [generate_text, hm]

theorem generate_batch_text_invalid_mode (env : Env) (st : SysState) (ps : List Str)
    (uid : Option Str) (l : Nat) (mode : Str) (hm : mode ∉ VALID_MODES) :
    generate_batch_text env st true ps uid l mode = (.errorResp 400 modeErrMsg, st) := by
  simp [generate_batch_text, hm]

/-- C7: for every `(prompt, mode, maxLength)` the shared-cache key is exactly
the string `"cache:" ++ prompt ++ ":" ++ mode ++ ":" ++ maxLength`, two calls
with identical inputs yield the identical key, and the key depends on nothing
else (in particular not on any conversation history). -/
theorem spec_C7_cache_key (p m : Str) (l : Nat) (p2 m2 : Str) (l2 : Nat)
    (hp : p = p2) (hm : m = m2) (hl : l = l2) :
    get_redis_key p m l = str "cache:" ++ p ++ str ":" ++ m ++ str ":" ++ natStr l
    ∧ get_redis_key p m l = get_redis_key p2 m2 l2 := by
  subst hp; subst hm; subst hl
  exact ⟨rfl, rfl⟩

theorem spec_C7_cache_key_witness :
    get_redis_key (str "a") (str "general") 100
      = str "cache:" ++ str "a" ++ str ":" ++ str "general" ++ str ":" ++ natStr 100
    ∧ get_redis_key (str "a") (str "general") 100
      = get_redis_key (str "a") (str "general") 100 :=
  spec_C7_cache_key (str "a") (str "general") 100 (str "a") (str "general") 100 rfl rfl rfl

/-- C5: a request (single or batch) whose mode is unrecognized fails with the
400 error naming all four valid modes, and the state — Redis store,
memoization table and backend call count — is returned unchanged, so no cache
lookup result, backend call, history read or history write is observable. -/
theorem spec_C5_invalid_mode (env : Env) (st : SysState) (p : Str) (ps : List Str)
    (uid : Option Str) (l : Nat) (mode : Str) (hm : mode ∉ VALID_MODES) :
    generate_text env st true p uid l mode = (.errorResp 400 modeErrMsg, st)
    ∧ generate_batch_text env st true ps uid l mode = (.errorResp 400 modeErrMsg, st)
    ∧ containsSeq (str "general") modeErrMsg
    ∧ containsSeq (str "recommendation") modeErrMsg
    ∧ containsSeq (str "support") modeErrMsg
    ∧ containsSeq (str "ecommerce") modeErrMsg := by
  refine ⟨generate_text_invalid_mode env st p uid l mode hm,
    generate_batch_text_invalid_mode env st ps uid l mode hm, ?_, ?_, ?_, ?_⟩
  all_goals rw [containsSeq_iff]
  all_goals decide

theorem spec_C5_invalid_mode_witness :
    (str "invalid_mode") ∉ VALID_MODES
    ∧ (generate_text env0 st0 true pW none 100 (str "invalid_mode")
        = (.errorResp 400 modeErrMsg, st0)
      ∧ generate_batch_text env0 st0 true [pW] none 100 (str "invalid_mode")
        = (.errorResp 400 modeErrMsg, st0)
      ∧ containsSeq (str "general") modeErrMsg
      ∧ containsSeq (str "recommendation") modeErrMsg
      ∧ containsSeq (str "support") modeErrMsg
      ∧ containsSeq (str "ecommerce") modeErrMsg) :=
  ⟨by decide, spec_C5_invalid_mode env0 st0 pW [pW] none 100 (str "invalid_mode") (by decide)⟩

/-- C2: when `(prompt, mode, maxLength)` has an entry in the shared result
cache, the single-prompt handler responds with the output and history fields
stored in that entry and returns the state untouched: the Redis store is
unchanged (no history read or write for any user id) and the backend call
count and memoization table are unchanged (no backend call). -/
theorem spec_C2_cache_hit (env : Env) (st : SysState) (p : Str) (uid : Option Str)
    (l : Nat) (mode i o : Str) (h : List Str) (hm : mode ∈ VALID_MODES)
    (hc : get_response_from_cache st p mode l = some (.resp i o h)) :
    generate_text env st true p uid l mode = (.ok p o h, st) :=
  generate_text_hit env st p uid l mode i o h hm hc

theorem spec_C2_cache_hit_witness :
    (str "general") ∈ VALID_MODES
    ∧ get_response_from_cache stC pW (str "general") 100 = some (.resp pW oW hW)
    ∧ generate_text env0 stC true pW (some uidW) 100 (str "general") = (.ok pW oW hW, stC) :=
  ⟨by decide, by decide,
    spec_C2_cache_hit env0 stC pW (some uidW) 100 (str "general") pW oW hW
      (by decide) (by decide)⟩

theorem with_cache_redis (env : Env) (st : SysState) (p : Str) (h : List Str)
    (l : Nat) (m : Str) :
    (generate_response_with_cache env st p h l m).2.redis = st.redis := by
  cases hm2 : memoFind (p, h, l, m) st.memo <;>
    simp [generate_response_with_cache, hm2]

theorem with_cache_hit_val (env : Env) (st : SysState) (p : Str) (h : List Str)
    (l : Nat) (m v : Str) (hm2 : memoFind (p, h, l, m) st.memo = some v) :
    (generate_response_with_cache env st p h l m).1 = v := by
  simp [generate_response_with_cache, hm2]

theorem memoFind_lruTouch (k : MemoKey) (memo : List (MemoKey × Str)) (v : Str)
    (h : memoFind k memo = some v) : memoFind k (lruTouch k memo) = some v := by
  simp only [lruTouch, h]
  simp [memoFind]

theorem memoFind_insert_self (k : MemoKey) (v : Str) (memo : List (MemoKey × Str)) :
    memoFind k (((k, v) :: memo).take LRU_MAXSIZE) = some v := by
  rw [show LRU_MAXSIZE = 99 + 1 from rfl, List.take_succ_cons]
  simp [memoFind]

theorem with_cache_self (env : Env) (st : SysState) (p : Str) (h : List Str)
    (l : Nat) (m : Str) :
    memoFind (p, h, l, m) (generate_response_with_cache env st p h l m).2.memo
      = some (generate_response_with_cache env st p h l m).1 := by
  cases hm2 : memoFind (p, h, l, m) st.memo with
  | some v => simp [generate_response_with_cache, hm2, memoFind_lruTouch _ _ _ hm2]
  | none => simp [generate_response_with_cache, hm2, memoFind_insert_self]

theorem get_after_set (st : SysState) (kv : Str → Option RVal) (hr : st.redis = some kv)
    (p m : Str) (l : Nat) (v : RVal) :
    get_response_from_cache (set_response_to_cache st p m l v) p m l = some v := by
  simp [set_response_to_cache, get_response_from_cache, hr, setKV]

theorem set_response_none (st : SysState) (hr : st.redis = none) (p m : Str) (l : Nat)
    (v : RVal) : set_response_to_cache st p m l v = st := by
  simp [set_response_to_cache, hr]

theorem get_cache_none (st : SysState) (hr : st.redis = none) (p m : Str) (l : Nat) :
    get_response_from_cache st p m l = none := by
  simp [get_response_from_cache, hr]

theorem historyLoad_none (st : SysState) (hr : st.redis = none) (uid : Option Str) :
    historyLoad st uid = .ok [] := by
  cases uid <;> simp [historyLoad, hr]

theorem generate_text_no_redis (env : Env) (st : SysState) (p : Str) (uid : Option Str)
    (l : Nat) (mode : Str) (hm : mode ∈ VALID_MODES) (hr : st.redis = none) :
    generate_text env st true p uid l mode
      = (.ok p (generate_response_with_cache env st p [] l mode).1 [],
         (generate_response_with_cache env st p [] l mode).2) := by
  have hc := get_cache_none st hr p mode l
  have hh := historyLoad_none st hr uid
  have hr2 : (generate_response_with_cache env st p [] l mode).2.redis = none := by
    rw [with_cache_redis]; exact hr
  cases uid <;>
    simp [generate_text, hm, hc, hh, hr2, set_response_none _ hr2]

theorem generate_text_miss_writes (env : Env) (st : SysState) (p : Str) (uid : Option Str)
    (l : Nat) (mode : Str) (history : List Str) (kv : Str → Option RVal)
    (hm : mode ∈ VALID_MODES)
    (hc : get_response_from_cache st p mode l = none)
    (hh : historyLoad st uid = .ok history)
    (hr : st.redis = some kv) :
    ∃ rh,
      (generate_text env st true p uid l mode).1
        = .ok p (generate_response_with_cache env st p history l mode).1 rh
      ∧ get_response_from_cache (generate_text env st true p uid l mode).2 p mode l
        = some (.resp p (generate_response_with_cache env st p history l mode).1 rh) := by
  have hr2 : (generate_response_with_cache env st p history l mode).2.redis = some kv := by
    rw [with_cache_redis]; exact hr
  cases uid with
  | none =>
    refine ⟨[], ?_, ?_⟩
    · simp [generate_text, hm, hc, hh]
    · simp only [generate_text]
      simp only [hm, hc, hh]
      simp
      exact get_after_set _ kv hr2 p mode l _
  | some u =>
    by_cases hu : u = []
    · subst hu
      refine ⟨[], ?_, ?_⟩
      · simp [generate_text, hm, hc, hh, hr2]
      · simp [generate_text, hm, hc, hh, hr2]
        exact get_after_set _ kv hr2 p mode l _
    · refine ⟨history ++ [str "User: " ++ p,
        str "AI: " ++ (generate_response_with_cache env st p history l mode).1], ?_, ?_⟩
      · simp [generate_text, hm, hc, hh, hr2, hu]
      · simp [generate_text, hm, hc, hh, hr2, hu]
        exact get_after_set _ _ rfl p mode l _

/-- C8: with a valid mode and no intervening activity, a second single-prompt
request with the same prompt, user id, maxLength and mode as a successful
first one returns the same output: it is answered from the shared cache entry
the first request wrote, or — when the shared store is absent — from the
in-process memoization of the first call. -/
theorem spec_C8_repeat_same_output (env : Env) (st : SysState) (p : Str)
    (uid : Option Str) (l : Nat) (mode o1 : Str) (hm : mode ∈ VALID_MODES)
    (h1 : respOutput (generate_text env st true p uid l mode).1 = some o1) :
    respOutput (generate_text env (generate_text env st true p uid l mode).2
        true p uid l mode).1 = some o1 := by
  cases hr : st.redis with
  | none =>
    have hfst := generate_text_no_redis env st p uid l mode hm hr
    rw [hfst] at h1 ⊢
    simp only [respOutput] at h1
    have hr2 : (generate_response_with_cache env st p [] l mode).2.redis = none := by
      rw [with_cache_redis]; exact hr
    rw [generate_text_no_redis env _ p uid l mode hm hr2]
    have hw2 := with_cache_hit_val env ((generate_response_with_cache env st p [] l mode).2)
      p [] l mode _ (with_cache_self env st p [] l mode)
    simp only [respOutput, hw2]
    exact h1
  | some kv =>
    cases hc : get_response_from_cache st p mode l with
    | some v =>
      cases v with
      | hist hh' =>
        have hbad : generate_text env st true p uid l mode
            = (.errorResp 500 internalErrMsg, st) := by
          simp [generate_text, hm, hc]
        rw [hbad] at h1
        simp [respOutput] at h1
      | resp i o h =>
        have hfst := generate_text_hit env st p uid l mode i o h hm hc
        rw [hfst] at h1 ⊢
        simp only [respOutput] at h1
        rw [generate_text_hit env st p uid l mode i o h hm hc]
        simpa [respOutput] using h1
    | none =>
      cases hhl : historyLoad st uid with
      | error e =>
        have hbad : generate_text env st true p uid l mode
            = (.errorResp 500 internalErrMsg, st) := by
          simp [generate_text, hm, hc, hhl]
        rw [hbad] at h1
        simp [respOutput] at h1
      | ok history =>
        obtain ⟨rh, hfst1, hread⟩ :=
          generate_text_miss_writes env st p uid l mode history kv hm hc hhl hr
        rw [hfst1] at h1
        simp only [respOutput] at h1
        rw [generate_text_hit env _ p uid l mode p _ rh hm hread]
        simpa [respOutput] using h1

theorem spec_C8_repeat_same_output_witness :
    (str "general") ∈ VALID_MODES
    ∧ respOutput (generate_text env0 st0 true pW none 100 (str "general")).1 = some unavailMsg
    ∧ respOutput (generate_text env0 (generate_text env0 st0 true pW none 100 (str "general")).2
        true pW none 100 (str "general")).1 = some unavailMsg :=
  ⟨by decide, by decide,
    spec_C8_repeat_same_output env0 st0 pW none 100 (str "general") unavailMsg
      (by decide) (by decide)⟩

/-- C4: when the backend pipeline is unavailable, `generate_response` returns
the literal unavailable-fallback message (one per prompt for batch input)
without invoking the pipeline, and when the pipeline raises, it returns the
literal error-fallback message (one per prompt for batch input); both paths
return a value rather than propagating an exception. -/
theorem spec_C4_fallbacks (envU envE : Env) (c cE : Nat) (hist : List Str)
    (l : Nat) (mode p : Str) (ps : List Str)
    (hU : envU.generatorLoaded = false)
    (hE : envE.generatorLoaded = true) (hErr : envE.oracle cE = .err) :
    generate_response envU c (.inl p) hist l mode = (.inl unavailMsg, c)
    ∧ generate_response envU c (.inr ps) hist l mode
      = (.inr (List.replicate ps.length unavailMsg), c)
    ∧ generate_response envE cE (.inl p) hist l mode = (.inl genErrMsg, cE + 1)
    ∧ generate_response envE cE (.inr ps) hist l mode
      = (.inr (List.replicate ps.length genErrMsg), cE + 1) := by
  refine ⟨?_, ?_, ?_, ?_⟩ <;> simp [generate_response, hU, hE, hErr]

theorem spec_C4_fallbacks_witness :
    env0.generatorLoaded = false ∧ envErr.generatorLoaded = true
    ∧ envErr.oracle 0 = .err
    ∧ (generate_response env0 0 (.inl pW) [] 100 (str "general") = (.inl unavailMsg, 0)
      ∧ generate_response env0 0 (.inr [pW, pW]) [] 100 (str "general")
        = (.inr (List.replicate 2 unavailMsg), 0)
      ∧ generate_response envErr 0 (.inl pW) [] 100 (str "general") = (.inl genErrMsg, 0 + 1)
      ∧ generate_response envErr 0 (.inr [pW, pW]) [] 100 (str "general")
        = (.inr (List.replicate 2 genErrMsg), 0 + 1)) :=
  ⟨rfl, rfl, rfl,
    spec_C4_fallbacks env0 envErr 0 0 [] 100 (str "general") pW [pW, pW] rfl rfl rfl⟩

/-- C1 fails on the code: the handlers persist `new_history[:6]` — the FIRST
six entries — instead of the most recent six.  Concretely, a user whose
stored history already has six entries sends one more prompt; the persisted
history afterwards is the old six entries unchanged, and the newly appended
`User:`/`AI:` turns are discarded, so the persisted history is not the tail
of the appended sequence as the claim states. -/
theorem spec_C1_head_truncation_bug :
    readKey (generate_text env0 stH true pW (some uidW) 100 (str "general")).2 uidW
      = some (.hist h6)
    ∧ h6 ≠ lastN 6 (h6 ++ [str "User: " ++ pW, str "AI: " ++ unavailMsg]) := by
  constructor
  · decide
  · decide

/-- C6 fails on the code in its truncation clause: the batch handler shares
one pre-batch history snapshot across prompts (that part holds), but both
the response history and the persisted history are `new_history[:6]` — the
first six entries — not the last six.  With a full six-entry prior history,
the batch's own turns are absent from the result. -/
theorem spec_C6_batch_truncation_bug :
    (generate_batch_text env0 stH true [pW] (some uidW) 100 (str "general")).1
      = .okBatch [pW] [unavailMsg] h6
    ∧ readKey (generate_batch_text env0 stH true [pW] (some uidW) 100 (str "general")).2 uidW
      = some (.hist h6)
    ∧ h6 ≠ lastN 6 (h6 ++ [str "User: " ++ pW] ++ [str "AI: " ++ unavailMsg]) := by
  refine ⟨by decide, by decide, by decide⟩
